import Mathlib

/-!
Verification of the certstream-server websocket core
(`src/certstream/webserver.py`) against its natural-language specification.

The Python code is shallowly embedded: the mutable attributes of `WebServer`
(`active_sockets`, `recently_seen`, the per-client `asyncio.Queue`s) become an
explicit state record; each coroutine iteration (`mux_ctl_stream`,
`ws_heartbeats`, the delivery loop of `root_handler`) becomes a pure state
transformer; `collections.deque(maxlen=25)` becomes a list with an
evicting append; Python's `list.remove` (which raises `ValueError` on a
missing element) becomes an `Except`-returning function.
-/

namespace Certstream

/-- The `message_type` discriminator carried by every JSON packet the server
builds: `"certificate_update"` in `mux_ctl_stream`, `"heartbeat"` in
`ws_heartbeats`. -/
inductive MessageType where
  | certificate_update
  | heartbeat
deriving DecidableEq, Repr

/-- An Envelope: one JSON object crossing a queue boundary.
`mux_ctl_stream` builds `{"message_type": "certificate_update", "data": cert_data}`
(the cert payload is opaque, modelled as a `Nat`); `ws_heartbeats` builds
`{"message_type": "heartbeat", "timestamp": timestamp}`. -/
inductive Envelope where
  | certificate_update (data : Nat)
  | heartbeat (timestamp : Nat)
deriving DecidableEq, Repr

/-- The `message_type` field of an envelope. -/
def Envelope.message_type : Envelope → MessageType
  | .certificate_update _ => .certificate_update
  | .heartbeat _ => .heartbeat

/-- `maxlen` of the `recently_seen` deque (`collections.deque(maxlen=25)`,
webserver.py line 26). -/
def RECENTLY_SEEN_MAXLEN : Nat := 25

/-- `deque.append` on a deque with `maxlen = 25`: the new element is appended
on the right and, if the deque would exceed 25 elements, the leftmost
(oldest) elements are discarded. -/
def dequeAppend (buf : List Envelope) (x : Envelope) : List Envelope :=
  if (buf ++ [x]).length > RECENTLY_SEEN_MAXLEN then
    (buf ++ [x]).drop ((buf ++ [x]).length - RECENTLY_SEEN_MAXLEN)
  else
    buf ++ [x]

/-- The body of `example_json_handler`: either the JSON of one buffer entry or
the literal body `"{}"` (the empty-object sentinel). -/
inductive ExampleResponse where
  | empty_object
  | entry (e : Envelope)
deriving DecidableEq, Repr

/-- `example_json_handler` (webserver.py lines 158-170): if `recently_seen`
is truthy (non-empty) respond with `json.dumps(list(self.recently_seen)[0])`,
i.e. element index 0 of the deque; otherwise respond with body `"{}"`. -/
def example_json_handler (recently_seen : List Envelope) : ExampleResponse :=
  match recently_seen with
  | [] => .empty_object
  | e :: _ => .entry e

/-- `latest_json_handler` (webserver.py lines 146-156): the `"messages"`
field is `list(self.recently_seen)`, the whole deque in its iteration
(arrival) order. -/
def latest_json_handler (recently_seen : List Envelope) : List Envelope :=
  recently_seen

/-- The `WebsocketClientInfo` namedtuple (webserver.py lines 13-16).
The `queue` field holds a fresh `asyncio.Queue` object; Python compares
`Queue` objects by object identity, so the field is modelled as the queue's
identity (a `Nat` key into the state's queue store).  Namedtuple equality is
field-wise, matching the derived `DecidableEq`. -/
structure WebsocketClientInfo where
  external_ip : String
  queueId : Nat
  connection_time : Nat
  channel : String
deriving DecidableEq, Repr

/-- The mutable state of a `WebServer` that the claims concern:
`active_sockets` (a Python list), `recently_seen` (the bounded deque), and
the contents of every client queue, addressed by queue identity. -/
structure ServerState where
  active_sockets : List WebsocketClientInfo
  recently_seen : List Envelope
  queues : Nat → List Envelope

/-- The freshly constructed server state (`WebServer.__init__`, lines 20-26):
no sockets, empty deque, every queue empty. -/
def initState : ServerState :=
  { active_sockets := [], recently_seen := [], queues := fun _ => [] }

/-- `queue.put(e)` on the `asyncio.Queue` with identity `qid`: FIFO append. -/
def enqueue (queues : Nat → List Envelope) (qid : Nat) (e : Envelope) :
    Nat → List Envelope :=
  fun q => if q = qid then queues q ++ [e] else queues q

/-- The loop body of `for client in ... : await client.queue.put(packet)`:
one packet put on every listed client's queue, in list order. -/
def putAll (clients : List WebsocketClientInfo) (queues : Nat → List Envelope)
    (e : Envelope) : Nat → List Envelope :=
  clients.foldl (fun qs c => enqueue qs c.queueId e) queues

/-- One iteration of `mux_ctl_stream` (webserver.py lines 63-75): pull
`cert_data`, build the `certificate_update` packet, append it to
`recently_seen`, then put a copy on every active socket's queue. -/
def mux_step (s : ServerState) (cert_data : Nat) : ServerState :=
  let data_packet := Envelope.certificate_update cert_data
  { s with
    recently_seen := dequeAppend s.recently_seen data_packet
    queues := putAll s.active_sockets s.queues data_packet }

/-- `mux_ctl_stream` run over a finite prefix of the upstream feed. -/
def mux_run (s : ServerState) (records : List Nat) : ServerState :=
  records.foldl mux_step s

/-- One post-sleep iteration of `ws_heartbeats` (webserver.py lines 194-202):
put a `heartbeat` packet carrying the current timestamp on every active
socket's queue. -/
def heartbeat_tick (s : ServerState) (timestamp : Nat) : ServerState :=
  { s with queues := putAll s.active_sockets s.queues (Envelope.heartbeat timestamp) }

/-- The times at which `ws_heartbeats` fires within `T` elapsed time-units:
the loop sleeps 10 units, then broadcasts, so ticks land at
10, 20, ..., 10 * (T / 10). -/
def heartbeat_times (T : Nat) : List Nat :=
  (List.range (T / 10)).map (fun i => 10 * (i + 1))

/-- `ws_heartbeats` run for `T` elapsed time-units (no records interleaved):
one `heartbeat_tick` per elapsed 10-unit interval, stamped with the tick
time. -/
def ws_heartbeats_run (s : ServerState) (T : Nat) : ServerState :=
  (heartbeat_times T).foldl heartbeat_tick s

/-- `self.valid_channels` (webserver.py lines 21-25). -/
def valid_channels : List String := ["default", "dns-only", "leaf-only"]

/-- Outcome of the subscribe phase of `root_handler` (lines 107-126) for a
websocket request: the registry afterwards, the registered subscriber if
any, and whether `HTTPBadRequest` was raised. -/
structure SubscribeResult where
  active_sockets : List WebsocketClientInfo
  subscriber : Option WebsocketClientInfo
  badRequest : Bool
deriving Repr

/-- The subscribe phase of `root_handler` (webserver.py lines 107-126):
if the requested channel is not in `valid_channels`, raise
`HTTPBadRequest` (before any `WebsocketClientInfo` is constructed or
appended); otherwise construct the namedtuple with a fresh queue and append
it to `active_sockets`. -/
def root_handler_subscribe (regs : List WebsocketClientInfo)
    (requested_channel : String) (ip : String) (qid : Nat) (now : Nat) :
    SubscribeResult :=
  if requested_channel ∉ valid_channels then
    { active_sockets := regs, subscriber := none, badRequest := true }
  else
    let websocket_info : WebsocketClientInfo :=
      { external_ip := ip, queueId := qid, connection_time := now,
        channel := requested_channel }
    { active_sockets := regs ++ [websocket_info],
      subscriber := some websocket_info, badRequest := false }

/-- The successful path of Python's `list.remove(x)`: delete the first
element equal to `x`. -/
def removeFirst : List WebsocketClientInfo → WebsocketClientInfo →
    List WebsocketClientInfo
  | [], _ => []
  | y :: ys, x => if y = x then ys else y :: removeFirst ys x

/-- Python's `list.remove(x)` in full: delete the first element equal to
`x`, or raise `ValueError` when no element equals `x`. -/
def list_remove (l : List WebsocketClientInfo) (x : WebsocketClientInfo) :
    Except String (List WebsocketClientInfo) :=
  if x ∈ l then .ok (removeFirst l x) else .error "ValueError"

/-- How the `Streaming` loop of `root_handler` (lines 128-134) stops.  The
loop body is `while True`, so it never exits normally: either
`asyncio.CancelledError` is raised into it (caught by the `except` clause)
or some other exception — a transport write error from `ws.send_str`, say —
escapes uncaught. -/
inductive LoopExit where
  | cancelled
  | writeError
deriving DecidableEq, Repr

/-- What the websocket branch of `root_handler` leaves behind once its
delivery loop has stopped: the registry, whether `ws.close()` was reached,
and whether an exception propagates out of the handler. -/
structure SessionResult where
  active_sockets : List WebsocketClientInfo
  closeAttempted : Bool
  raised : Bool
deriving Repr

/-- Lines 128-140 of `root_handler`, from loop exit onward.  The `finally`
block runs `self.active_sockets.remove(websocket_info)` unconditionally.
Then: on `CancelledError` the exception was caught, so control reaches
`await ws.close()`, whose own exception (if any) propagates — there is no
enclosing handler; on any other exception the `finally` re-raises after the
removal and `await ws.close()` is never reached. -/
def root_handler_finish (regs1 : List WebsocketClientInfo)
    (websocket_info : WebsocketClientInfo) (cause : LoopExit)
    (closeRaises : Bool) : SessionResult :=
  let regs2 := removeFirst regs1 websocket_info
  match cause with
  | .writeError =>
    { active_sockets := regs2, closeAttempted := false, raised := true }
  | .cancelled =>
    { active_sockets := regs2, closeAttempted := true, raised := closeRaises }

/-- A whole live session of `root_handler` as it affects the registry:
append `websocket_info` (line 126), stream until the loop stops for
`cause`, then tear down. -/
def root_handler_live_session (regs0 : List WebsocketClientInfo)
    (websocket_info : WebsocketClientInfo) (cause : LoopExit)
    (closeRaises : Bool) : SessionResult :=
  root_handler_finish (regs0 ++ [websocket_info]) websocket_info cause closeRaises

/-- The `Streaming` loop of `root_handler` (lines 129-132) viewed over a
finite queue content: each `await client_queue.get()` yields the next
queued envelope and `ws.send_str` writes it out, in FIFO order. -/
def session_drain : List Envelope → List Envelope
  | [] => []
  | e :: rest => e :: session_drain rest

/-- A mutation of `active_sockets` another task may perform while the
broadcasting task is suspended at the `await` inside its `for` loop. -/
inductive Interleave where
  | quiet
  | deregister (x : WebsocketClientInfo)
deriving Repr

/-- Apply one interleaved action to the live list. -/
def applyInterleave (l : List WebsocketClientInfo) :
    Interleave → List WebsocketClientInfo
  | .quiet => l
  | .deregister x => removeFirst l x

/-- The Python `for client in self.active_sockets:` loop as both
`mux_ctl_stream` (lines 74-75) and `ws_heartbeats` (lines 198-202) run it:
an index-based iterator over the LIVE list (no copy is taken).  Each
iteration reads element `i` of the current list, then suspends at the
`await client.queue.put(...)`, where `sched i` may mutate the list.
`fuel` bounds the recursion; since no interleaving here lengthens the list,
the initial length is enough fuel.  Returns the final list and the clients
the loop body touched, in order. -/
def iterLiveGo (fuel : Nat) (l : List WebsocketClientInfo) (i : Nat)
    (sched : Nat → Interleave) :
    List WebsocketClientInfo × List WebsocketClientInfo :=
  match fuel with
  | 0 => (l, [])
  | fuel + 1 =>
    if h : i < l.length then
      let c := l.get ⟨i, h⟩
      let l2 := applyInterleave l (sched i)
      let r := iterLiveGo fuel l2 (i + 1) sched
      (r.1, c :: r.2)
    else
      (l, [])

/-- Entry point of the live-list iteration, starting at index 0. -/
def iterLive (l : List WebsocketClientInfo) (sched : Nat → Interleave) :
    List WebsocketClientInfo × List WebsocketClientInfo :=
  iterLiveGo l.length l 0 sched

/-- `Modelled from the spec:` the discipline §5 prescribes (the code for it
is absent from the repository): broadcast over "a point-in-time snapshot
copy (taken before any suspension point)", so the clients delivered to are
exactly the registry as it stood when the loop began. -/
def iterSnapshot (l : List WebsocketClientInfo) : List WebsocketClientInfo :=
  l

/-- The schedule with no interleaved mutation. -/
def schedQuiet : Nat → Interleave := fun _ => Interleave.quiet

/-- One per-client record of the `clients` dict built by `stats_handler`
(lines 176-181).  The `conection_time` field name reproduces the source.
`connection_length` is `pretty_date(...)`, an import from outside this
file, passed in as a parameter. -/
structure StatsClientEntry where
  ip_address : String
  conection_time : Nat
  connection_length : String
  channel : String
deriving DecidableEq, Repr

/-- `"{}-{}".format(client.external_ip, client.connection_time)`
(line 175), with the braces of the format string filled in. -/
def client_identifier (c : WebsocketClientInfo) : String :=
  c.external_ip ++ "-" ++ toString c.connection_time

/-- The keys of a Python dict modelled as an insertion-ordered
association list. -/
def dictKeys {A : Type} (d : List (String × A)) : List String :=
  d.map Prod.fst

/-- `d[k] = v` on a Python dict: overwrite in place if the key exists,
else append a new binding. -/
def dictInsert {A : Type} (d : List (String × A)) (k : String) (v : A) :
    List (String × A) :=
  if k ∈ dictKeys d then
    d.map (fun p => if p.1 = k then (k, v) else p)
  else
    d ++ [(k, v)]

/-- The dict value `stats_handler` builds for one client (lines 176-181). -/
def stats_entry (pretty_date : Nat → String) (c : WebsocketClientInfo) :
    StatsClientEntry :=
  { ip_address := c.external_ip,
    conection_time := c.connection_time,
    connection_length := pretty_date c.connection_time,
    channel := c.channel }

/-- The `clients` dict of `stats_handler` (lines 173-181): start from `{}`
and insert one entry per active socket, keyed by `client_identifier`. -/
def stats_clients (pretty_date : Nat → String)
    (regs : List WebsocketClientInfo) : List (String × StatsClientEntry) :=
  regs.foldl
    (fun clients c =>
      dictInsert clients (client_identifier c) (stats_entry pretty_date c))
    []

/-- `stats_handler` (lines 172-190): build the `clients` dict keyed by
`client_identifier`, then report `connected_client_count` as
`len(self.active_sockets)` alongside it. -/
def stats_handler (pretty_date : Nat → String)
    (regs : List WebsocketClientInfo) :
    Nat × List (String × StatsClientEntry) :=
  (regs.length, stats_clients pretty_date regs)

/-- One atomic step of any task of the system, as far as the shared state
is concerned: a `mux_ctl_stream` iteration, a `ws_heartbeats` broadcast, a
`root_handler` registration (line 126), or a `root_handler` teardown
removal (line 136). -/
inductive Event where
  | record (cert_data : Nat)
  | heartbeatTick (timestamp : Nat)
  | subscribe (info : WebsocketClientInfo)
  | disconnect (info : WebsocketClientInfo)

/-- Apply one event to the server state. -/
def step (s : ServerState) : Event → ServerState
  | .record d => mux_step s d
  | .heartbeatTick ts => heartbeat_tick s ts
  | .subscribe info =>
    { s with active_sockets := s.active_sockets ++ [info] }
  | .disconnect info =>
    { s with active_sockets := removeFirst s.active_sockets info }

/-- The server state reached from start-up by a finite event history. -/
def run (events : List Event) : ServerState :=
  events.foldl step initState

/-- A fixed example client used in concrete witnesses. -/
def infoA : WebsocketClientInfo :=
  { external_ip := "203.0.113.7", queueId := 0, connection_time := 100,
    channel := "default" }

/-- A second example client, distinct from `infoA`. -/
def infoB : WebsocketClientInfo :=
  { external_ip := "203.0.113.9", queueId := 1, connection_time := 100,
    channel := "dns-only" }

/-- A schedule on which `infoA`'s session deregisters itself while the
broadcast loop is suspended delivering to `infoA` (iteration index 0). -/
def schedDropA : Nat → Interleave :=
  fun i => if i = 0 then Interleave.deregister infoA else Interleave.quiet

/-- A third example client: same external IP and connect second as `infoA`
(two connections from one host within the same second) but its own queue
and channel, hence a distinct namedtuple value. -/
def infoC : WebsocketClientInfo :=
  { external_ip := "203.0.113.7", queueId := 2, connection_time := 100,
    channel := "leaf-only" }

/-- A stand-in for `pretty_date` (imported from `certstream.util`, outside
this file); statements about `stats_handler` quantify over the function, so
witnesses just need some concrete choice. -/
def prettyDateStub : Nat → String :=
  fun _ => "moments ago"

/-- The replay-buffer invariant of interest to C10: every stored envelope
is a `certificate_update`. -/
def bufferOnlyCerts (s : ServerState) : Prop :=
  ∀ e ∈ s.recently_seen, e.message_type = MessageType.certificate_update

/-- The state of a server with exactly one connected client, `infoA`,
whose queue is empty; used by concrete witnesses. -/
def oneClientState : ServerState :=
  { active_sockets := [infoA], recently_seen := [], queues := fun _ => [] }

/-- Unfolded form of `dequeAppend` as a single right-append followed by a
left drop; the `if` disappears because dropping `n - 25` elements when
`n ≤ 25` drops nothing. -/
theorem dequeAppend_eq_drop (buf : List Envelope) (x : Envelope) :
    dequeAppend buf x =
      (buf ++ [x]).drop ((buf ++ [x]).length - RECENTLY_SEEN_MAXLEN) := by
  unfold dequeAppend
  split
  · rfl
  · next h =>
    have hz : (buf ++ [x]).length - RECENTLY_SEEN_MAXLEN = 0 := by omega
    rw [hz, List.drop_zero]

/-- Folding `dequeAppend` over a list of inserts keeps the last 25 elements
of the concatenated history, provided the starting buffer already respects
the capacity. -/
theorem foldl_dequeAppend (xs : List Envelope) :
    ∀ (l : List Envelope), l.length ≤ RECENTLY_SEEN_MAXLEN →
      List.foldl dequeAppend l xs =
        (l ++ xs).drop (l.length + xs.length - RECENTLY_SEEN_MAXLEN) := by
  induction xs with
  | nil =>
    intro l hl
    have hz : l.length + ([] : List Envelope).length - RECENTLY_SEEN_MAXLEN = 0 := by
      simp only [List.length_nil]; omega
    rw [List.foldl_nil, List.append_nil, hz, List.drop_zero]
  | cons x xs ih =>
    intro l hl
    rw [List.foldl_cons, dequeAppend_eq_drop]
    have hlx : (l ++ [x]).length = l.length + 1 := by
      simp [List.length_append]
    by_cases hfull : l.length < RECENTLY_SEEN_MAXLEN
    · have hz : (l ++ [x]).length - RECENTLY_SEEN_MAXLEN = 0 := by omega
      rw [hz, List.drop_zero]
      have hlen : (l ++ [x]).length ≤ RECENTLY_SEEN_MAXLEN := by omega
      rw [ih (l ++ [x]) hlen, List.append_assoc, List.singleton_append]
      congr 1
      simp only [hlx, List.length_cons]
      omega
    · have hd : (l ++ [x]).length - RECENTLY_SEEN_MAXLEN = 1 := by omega
      rw [hd]
      have hlen2 : ((l ++ [x]).drop 1).length ≤ RECENTLY_SEEN_MAXLEN := by
        simp only [List.length_drop]; omega
      rw [ih _ hlen2]
      have hdropapp : ((l ++ [x]) ++ xs).drop 1 = (l ++ [x]).drop 1 ++ xs :=
        List.drop_append_of_le_length (by rw [hlx]; omega)
      rw [← hdropapp, List.drop_drop, List.append_assoc, List.singleton_append]
      congr 1
      simp only [List.length_drop, hlx, List.length_cons]
      omega

/-- What one broadcast round leaves on queue `qid`: one copy of the packet
per listed client owning that queue, after the prior contents. -/
theorem putAll_apply (clients : List WebsocketClientInfo) :
    ∀ (queues : Nat → List Envelope) (e : Envelope) (qid : Nat),
      putAll clients queues e qid =
        queues qid ++
          List.replicate (clients.countP (fun c => c.queueId == qid)) e := by
  induction clients with
  | nil =>
    intro queues e qid
    simp [putAll]
  | cons c cs ih =>
    intro queues e qid
    have hstep : putAll (c :: cs) queues e =
        putAll cs (enqueue queues c.queueId e) e := rfl
    rw [hstep, ih]
    by_cases h : c.queueId = qid
    · subst h
      rw [List.countP_cons_of_pos _ _ (by simp)]
      simp [enqueue, List.replicate_succ, List.append_assoc]
    · rw [List.countP_cons_of_neg _ _ (by simp [h])]
      have h2 : ¬qid = c.queueId := fun hq => h hq.symm
      simp [enqueue, h2]

/-- Removing a client appended to a list it does not occur in earlier
recovers the original list. -/
theorem removeFirst_append_self (l : List WebsocketClientInfo)
    (x : WebsocketClientInfo) (h : x ∉ l) : removeFirst (l ++ [x]) x = l := by
  induction l with
  | nil => simp [removeFirst]
  | cons y ys ih =>
    have hyx : y ≠ x := fun hy => h (hy ▸ List.mem_cons_self y ys)
    have hx : x ∉ ys := fun hm => h (List.mem_cons_of_mem y hm)
    simp only [List.cons_append, removeFirst, if_neg hyx]
    exact congrArg (y :: ·) (ih hx)

/-- `removeFirst` on a present element shortens the list by exactly one. -/
theorem removeFirst_length (l : List WebsocketClientInfo)
    (x : WebsocketClientInfo) (h : x ∈ l) :
    (removeFirst l x).length + 1 = l.length := by
  induction l with
  | nil => cases h
  | cons y ys ih =>
    by_cases hy : y = x
    · simp [removeFirst, hy]
    · have hx : x ∈ ys := by
        cases List.mem_cons.mp h with
        | inl heq => exact absurd heq.symm hy
        | inr hm => exact hm
      simp only [removeFirst, if_neg hy, List.length_cons]
      rw [← ih hx]

/-- `removeFirst` on a present element drops exactly one occurrence of it. -/
theorem removeFirst_count (l : List WebsocketClientInfo)
    (x : WebsocketClientInfo) (h : x ∈ l) :
    (removeFirst l x).count x + 1 = l.count x := by
  induction l with
  | nil => cases h
  | cons y ys ih =>
    by_cases hy : y = x
    · subst hy
      simp [removeFirst, List.count_cons]
    · have hx : x ∈ ys := by
        cases List.mem_cons.mp h with
        | inl heq => exact absurd heq.symm hy
        | inr hm => exact hm
      simp only [removeFirst, if_neg hy]
      rw [List.count_cons, List.count_cons, if_neg (by simp [hy]), ← ih hx]

/-- `mux_ctl_stream` never touches `active_sockets`. -/
theorem mux_run_active_sockets (records : List Nat) :
    ∀ s : ServerState, (mux_run s records).active_sockets = s.active_sockets := by
  induction records with
  | nil => intro s; rfl
  | cons d ds ih => intro s; exact ih (mux_step s d)

/-- Queue contents after a run of `mux_ctl_stream`, for a queue owned by
exactly one registered client: the prior contents followed by one
`certificate_update` envelope per record, in arrival order. -/
theorem mux_run_queue (records : List Nat) :
    ∀ (s : ServerState) (qid : Nat),
      s.active_sockets.countP (fun c => c.queueId == qid) = 1 →
      (mux_run s records).queues qid =
        s.queues qid ++ records.map Envelope.certificate_update := by
  induction records with
  | nil => intro s qid _; simp [mux_run]
  | cons d ds ih =>
    intro s qid hcount
    have hstep : mux_run s (d :: ds) = mux_run (mux_step s d) ds := rfl
    rw [hstep, ih (mux_step s d) qid hcount]
    have hq : (mux_step s d).queues qid =
        s.queues qid ++ [Envelope.certificate_update d] := by
      show putAll s.active_sockets s.queues (Envelope.certificate_update d) qid =
        s.queues qid ++ [Envelope.certificate_update d]
      rw [putAll_apply, hcount]
      rfl
    rw [hq, List.append_assoc]
    rfl

/-- Replay-buffer contents after a run of `mux_ctl_stream`: the buffer
evolves by `dequeAppend` of the wrapped records. -/
theorem mux_run_recently_seen (records : List Nat) :
    ∀ s : ServerState,
      (mux_run s records).recently_seen =
        List.foldl dequeAppend s.recently_seen
          (records.map Envelope.certificate_update) := by
  induction records with
  | nil => intro s; rfl
  | cons d ds ih =>
    intro s
    exact ih (mux_step s d)

/-- Queue contents after `ws_heartbeats` has run over a list of tick
times, for a queue owned by exactly one registered client: one
`heartbeat` envelope per tick, stamped with the tick time. -/
theorem heartbeat_fold_queue (times : List Nat) :
    ∀ (s : ServerState) (qid : Nat),
      s.active_sockets.countP (fun c => c.queueId == qid) = 1 →
      (times.foldl heartbeat_tick s).queues qid =
        s.queues qid ++ times.map Envelope.heartbeat := by
  induction times with
  | nil => intro s qid _; simp
  | cons t ts ih =>
    intro s qid hcount
    have hstep : List.foldl heartbeat_tick s (t :: ts) =
        List.foldl heartbeat_tick (heartbeat_tick s t) ts := rfl
    rw [hstep, ih (heartbeat_tick s t) qid hcount]
    have hq : (heartbeat_tick s t).queues qid =
        s.queues qid ++ [Envelope.heartbeat t] := by
      show putAll s.active_sockets s.queues (Envelope.heartbeat t) qid =
        s.queues qid ++ [Envelope.heartbeat t]
      rw [putAll_apply, hcount]
      rfl
    rw [hq, List.append_assoc]
    rfl

/-- The delivery loop writes out exactly the queued envelopes, in order. -/
theorem session_drain_eq (q : List Envelope) : session_drain q = q := by
  induction q with
  | nil => rfl
  | cons e rest ih => simp [session_drain, ih]

/-- With no interleaved mutation, the live-list iteration starting at
index `i` touches exactly the suffix from `i` and leaves the list as it
was. -/
theorem iterLiveGo_quiet (fuel : Nat) :
    ∀ (l : List WebsocketClientInfo) (i : Nat), l.length ≤ fuel + i →
      iterLiveGo fuel l i schedQuiet = (l, l.drop i) := by
  induction fuel with
  | zero =>
    intro l i hle
    have hnil : l.drop i = [] := List.drop_eq_nil_of_le (by omega)
    simp [iterLiveGo, hnil]
  | succ fuel ih =>
    intro l i hle
    by_cases h : i < l.length
    · have hrec := ih l (i + 1) (by omega)
      simp only [iterLiveGo, dif_pos h, applyInterleave, schedQuiet, hrec]
      rw [List.get_cons_drop]
    · have hnil : l.drop i = [] := List.drop_eq_nil_of_le (by omega)
      simp [iterLiveGo, h, hnil]

/-- C1 counterexample: run two records through the multiplexer.  The buffer
is non-empty and its most recently inserted entry wraps record 1, yet the
example endpoint returns the entry wrapping record 0 — `list(deque)[0]` is
the oldest entry, not the newest. -/
theorem C1_counterexample :
    (mux_run initState [0, 1]).recently_seen ≠ [] ∧
    (mux_run initState [0, 1]).recently_seen.getLast? =
      some (Envelope.certificate_update 1) ∧
    example_json_handler (mux_run initState [0, 1]).recently_seen ≠
      ExampleResponse.entry (Envelope.certificate_update 1) := by
  decide

/-- C1 (amended): for every record history, the example endpoint returns
the empty-object sentinel when the buffer is empty, and otherwise the
OLDEST entry still retained in the buffer (the head of the last-25 window),
not the most recently inserted one. -/
theorem C1_example_returns_oldest_retained (records : List Nat) :
    example_json_handler (mux_run initState records).recently_seen =
      match ((records.map Envelope.certificate_update).drop
          (records.length - RECENTLY_SEEN_MAXLEN)).head? with
      | some e => ExampleResponse.entry e
      | none => ExampleResponse.empty_object := by
  rw [mux_run_recently_seen, show initState.recently_seen = [] from rfl,
    foldl_dequeAppend _ [] (by simp [RECENTLY_SEEN_MAXLEN])]
  simp only [List.nil_append, List.length_nil, List.length_map, Nat.zero_add]
  cases hdrop : (records.map Envelope.certificate_update).drop
      (records.length - RECENTLY_SEEN_MAXLEN) with
  | nil => simp [example_json_handler]
  | cons e rest => simp [example_json_handler]

/-- C3: the replay buffer reached by any record history holds at most 25
entries, is the last-25 window of the arrival sequence in arrival order,
and after 26 insertions of pairwise-distinct records the first-inserted
entry is absent while the 26th is present. -/
theorem C3_replay_buffer_bounded (records : List Nat) :
    (mux_run initState records).recently_seen.length ≤ RECENTLY_SEEN_MAXLEN ∧
    (mux_run initState records).recently_seen =
      (records.map Envelope.certificate_update).drop
        (records.length - RECENTLY_SEEN_MAXLEN) ∧
    (records.length = 26 → records.Nodup →
      (∀ d, records.head? = some d →
        Envelope.certificate_update d ∉ (mux_run initState records).recently_seen) ∧
      (∀ d, records.getLast? = some d →
        Envelope.certificate_update d ∈ (mux_run initState records).recently_seen)) := by
  have hbuf : (mux_run initState records).recently_seen =
      (records.map Envelope.certificate_update).drop
        (records.length - RECENTLY_SEEN_MAXLEN) := by
    rw [mux_run_recently_seen, show initState.recently_seen = [] from rfl,
      foldl_dequeAppend _ [] (by simp [RECENTLY_SEEN_MAXLEN])]
    simp only [List.nil_append, List.length_nil, List.length_map, Nat.zero_add]
  refine ⟨?_, hbuf, ?_⟩
  · rw [hbuf]
    simp only [List.length_drop, List.length_map, RECENTLY_SEEN_MAXLEN]
    omega
  · intro h26 hnd
    have h1 : records.length - RECENTLY_SEEN_MAXLEN = 1 := by
      rw [h26]; rfl
    constructor
    · intro d hd
      rw [hbuf, h1]
      cases records with
      | nil => cases hd
      | cons r rs =>
        simp only [List.head?_cons, Option.some.injEq] at hd
        subst hd
        simp only [List.map_cons, List.drop_succ_cons, List.drop_zero]
        intro hmem
        obtain ⟨d2, hd2, heq⟩ := List.mem_map.mp hmem
        have hd2d : d2 = r := by simpa using heq
        subst hd2d
        exact (List.nodup_cons.mp hnd).1 hd2
    · intro d hd
      rw [hbuf, h1]
      cases records with
      | nil => cases hd
      | cons r1 rs1 =>
        cases rs1 with
        | nil => simp at h26
        | cons r2 rs2 =>
          rw [List.getLast?_cons_cons] at hd
          have hmem : d ∈ r2 :: rs2 := List.mem_of_getLast?_eq_some hd
          simp only [List.map_cons, List.drop_succ_cons, List.drop_zero]
          exact List.mem_map.mpr ⟨d, hmem, rfl⟩

/-- Witness for C3 at the concrete history `0, 1, ..., 25` (26 distinct
records): bounded buffer, record 0's envelope evicted, record 25's
present. -/
theorem C3_witness :
    (mux_run initState (List.range 26)).recently_seen.length ≤
      RECENTLY_SEEN_MAXLEN ∧
    Envelope.certificate_update 0 ∉
      (mux_run initState (List.range 26)).recently_seen ∧
    Envelope.certificate_update 25 ∈
      (mux_run initState (List.range 26)).recently_seen := by
  have h := C3_replay_buffer_bounded (List.range 26)
  refine ⟨h.1, ?_, ?_⟩
  · exact (h.2.2 (by decide) (by decide)).1 0 (by decide)
  · exact (h.2.2 (by decide) (by decide)).2 25 (by decide)

/-- C4 counterexample: when the delivery loop stops because a write raised
(any exception other than `CancelledError`), the subscriber is removed but
`await ws.close()` is never reached — the exception re-raises out of the
`finally` first.  And on the cancellation path, an error raised by
`ws.close()` itself propagates instead of being swallowed.  This refutes
the claim that a graceful close is attempted, with its errors swallowed,
for every way the loop terminates. -/
theorem C4_counterexample :
    (root_handler_live_session [] infoA LoopExit.writeError false).active_sockets = [] ∧
    (root_handler_live_session [] infoA LoopExit.writeError false).closeAttempted = false ∧
    (root_handler_live_session [] infoA LoopExit.writeError false).raised = true ∧
    (root_handler_live_session [] infoA LoopExit.cancelled true).raised = true := by
  decide

/-- C4 (amended): for every way the delivery loop stops, the subscriber is
removed from the registry unconditionally before the session releases
control; but the transport close is attempted only on the cancellation
path (a write error re-raises past it), and an exception from the close
attempt itself propagates rather than being swallowed. -/
theorem C4_teardown (regs0 : List WebsocketClientInfo)
    (info : WebsocketClientInfo) (cause : LoopExit) (closeRaises : Bool)
    (h : info ∉ regs0) :
    (root_handler_live_session regs0 info cause closeRaises).active_sockets = regs0 ∧
    ((root_handler_live_session regs0 info cause closeRaises).closeAttempted = true ↔
      cause = LoopExit.cancelled) ∧
    ((root_handler_live_session regs0 info cause closeRaises).raised = true ↔
      (cause = LoopExit.writeError ∨ closeRaises = true)) := by
  unfold root_handler_live_session root_handler_finish
  cases cause <;> simp [removeFirst_append_self regs0 info h]

/-- Witness for C4: a clean cancellation of `infoA`'s session with `infoB`
also connected — `infoA` is deregistered, the close is attempted, and
nothing propagates. -/
theorem C4_witness :
    (root_handler_live_session [infoB] infoA LoopExit.cancelled false).active_sockets = [infoB] ∧
    (root_handler_live_session [infoB] infoA LoopExit.cancelled false).closeAttempted = true ∧
    ¬((root_handler_live_session [infoB] infoA LoopExit.cancelled false).raised = true) := by
  have h := C4_teardown [infoB] infoA LoopExit.cancelled false (by decide)
  exact ⟨h.1, h.2.1.mpr rfl, fun hr => by simpa using h.2.2.mp hr⟩

/-- C5: a subscribe request whose channel tag is not one of
`valid_channels` raises `HTTPBadRequest` before any `WebsocketClientInfo`
is constructed or appended, so the registry is exactly what it was. -/
theorem C5_invalid_channel_rejected (regs : List WebsocketClientInfo)
    (ch ip : String) (qid now : Nat) (h : ch ∉ valid_channels) :
    (root_handler_subscribe regs ch ip qid now).badRequest = true ∧
    (root_handler_subscribe regs ch ip qid now).subscriber = none ∧
    (root_handler_subscribe regs ch ip qid now).active_sockets = regs ∧
    (root_handler_subscribe regs ch ip qid now).active_sockets.length =
      regs.length := by
  simp [root_handler_subscribe, h]

/-- Witness for C5: subscribing with the tag `"bogus"` against a registry
holding `infoA` is rejected and leaves the registry alone. -/
theorem C5_witness :
    (root_handler_subscribe [infoA] "bogus" "198.51.100.2" 7 120).badRequest = true ∧
    (root_handler_subscribe [infoA] "bogus" "198.51.100.2" 7 120).subscriber = none ∧
    (root_handler_subscribe [infoA] "bogus" "198.51.100.2" 7 120).active_sockets = [infoA] ∧
    (root_handler_subscribe [infoA] "bogus" "198.51.100.2" 7 120).active_sockets.length = 1 :=
  C5_invalid_channel_rejected [infoA] "bogus" "198.51.100.2" 7 120 (by decide)

/-- C7 counterexample: `active_sockets` is a Python list and teardown uses
`list.remove`; removing a client absent from the registry raises
`ValueError` rather than being a silent no-op. -/
theorem C7_counterexample :
    list_remove [] infoA = Except.error "ValueError" := by
  rfl

/-- C7 (amended): `list.remove` on the registry deletes the first
occurrence of a present subscriber — shrinking the list by one and the
subscriber's multiplicity by one — but raises `ValueError` when the
subscriber is absent; it is not idempotent. -/
theorem C7_remove_semantics (l : List WebsocketClientInfo)
    (x : WebsocketClientInfo) :
    (x ∉ l → list_remove l x = Except.error "ValueError") ∧
    (x ∈ l → list_remove l x = Except.ok (removeFirst l x) ∧
      (removeFirst l x).length + 1 = l.length ∧
      (removeFirst l x).count x + 1 = l.count x) := by
  constructor
  · intro h
    simp [list_remove, h]
  · intro h
    exact ⟨by simp [list_remove, h], removeFirst_length l x h,
      removeFirst_count l x h⟩

/-- Witness for C7: removing `infoA` from `[infoA]` succeeds and shrinks
the registry; removing `infoB` from the empty registry raises. -/
theorem C7_witness :
    list_remove [infoA] infoA = Except.ok (removeFirst [infoA] infoA) ∧
    (removeFirst [infoA] infoA).length + 1 = 1 ∧
    list_remove [] infoB = Except.error "ValueError" := by
  refine ⟨((C7_remove_semantics [infoA] infoA).2 (by simp)).1, ?_,
    (C7_remove_semantics [] infoB).1 (by simp)⟩
  have h := ((C7_remove_semantics [infoA] infoA).2 (by simp)).2.1
  simpa using h

/-- C2: a subscriber registered before the first record and owning its
queue alone (the code allocates a fresh `asyncio.Queue` per connection)
stays registered across any run of the multiplexer, and draining its queue
writes out exactly one `certificate_update` envelope per upstream record,
in arrival order — all N records, exactly once each. -/
theorem C2_delivery_in_arrival_order (records : List Nat) (s : ServerState)
    (c : WebsocketClientInfo) (hmem : c ∈ s.active_sockets)
    (hone : s.active_sockets.countP (fun x => x.queueId == c.queueId) = 1)
    (hempty : s.queues c.queueId = []) :
    (mux_run s records).active_sockets = s.active_sockets ∧
    session_drain ((mux_run s records).queues c.queueId) =
      records.map Envelope.certificate_update := by
  refine ⟨mux_run_active_sockets records s, ?_⟩
  rw [session_drain_eq, mux_run_queue records s c.queueId hone, hempty,
    List.nil_append]

/-- Witness for C2: `infoA` alone on the registry receives records
3, 1, 4 as three `certificate_update` envelopes in that order. -/
theorem C2_witness :
    session_drain ((mux_run oneClientState [3, 1, 4]).queues infoA.queueId) =
      List.map Envelope.certificate_update [3, 1, 4] :=
  (C2_delivery_in_arrival_order [3, 1, 4] oneClientState infoA
    (by decide) (by decide) rfl).2

/-- C6: a registered subscriber owning its queue alone receives, per
elapsed 10-time-unit interval, exactly one `heartbeat` envelope stamped
with the tick's timestamp, whatever records may or may not arrive
elsewhere; in particular after 25 time-units with an initially empty queue
it holds exactly the two heartbeats stamped 10 and 20. -/
theorem C6_heartbeat_schedule (T : Nat) (s : ServerState)
    (c : WebsocketClientInfo) (hmem : c ∈ s.active_sockets)
    (hone : s.active_sockets.countP (fun x => x.queueId == c.queueId) = 1) :
    (ws_heartbeats_run s T).queues c.queueId =
      s.queues c.queueId ++ (heartbeat_times T).map Envelope.heartbeat ∧
    (heartbeat_times T).length = T / 10 ∧
    (s.queues c.queueId = [] → T = 25 →
      (ws_heartbeats_run s T).queues c.queueId =
        [Envelope.heartbeat 10, Envelope.heartbeat 20]) := by
  have hq : (ws_heartbeats_run s T).queues c.queueId =
      s.queues c.queueId ++ (heartbeat_times T).map Envelope.heartbeat :=
    heartbeat_fold_queue (heartbeat_times T) s c.queueId hone
  refine ⟨hq, by simp [heartbeat_times], ?_⟩
  intro hempty hT
  subst hT
  rw [hq, hempty, List.nil_append]
  rfl

/-- Witness for C6: one connected client, 25 elapsed time-units, no
records: the queue holds exactly the heartbeats of ticks 10 and 20. -/
theorem C6_witness :
    (ws_heartbeats_run oneClientState 25).queues infoA.queueId =
      [Envelope.heartbeat 10, Envelope.heartbeat 20] :=
  (C6_heartbeat_schedule 25 oneClientState infoA (by decide) (by decide)).2.2
    rfl rfl

/-- C8 counterexample: both broadcast loops iterate the LIVE
`active_sockets` list (no snapshot copy), suspending inside the loop body.
With `infoA` and `infoB` registered, if `infoA`'s session deregisters
itself while the loop is suspended delivering to `infoA`, the index-based
iterator then steps past `infoB`: the loop touches only `infoA`, although
`infoB` was registered throughout and a snapshot iteration would have
delivered to both. -/
theorem C8_counterexample :
    (iterLive [infoA, infoB] schedDropA).2 ≠ iterSnapshot [infoA, infoB] ∧
    infoB ∈ (iterLive [infoA, infoB] schedDropA).1 ∧
    infoB ∉ (iterLive [infoA, infoB] schedDropA).2 := by
  decide

/-- C8 (amended): the broadcast and heartbeat loops iterate the live
registry, not a snapshot.  When no mutation interleaves, this coincides
with snapshot semantics (each registered subscriber is reached exactly
once, in order, and the registry is unchanged); but a deregistration
interleaved at the suspension point can desynchronize the iteration,
skipping a subscriber that remains registered. -/
theorem C8_live_iteration (l : List WebsocketClientInfo) :
    iterLive l schedQuiet = (l, iterSnapshot l) ∧
    (iterLive [infoA, infoB] schedDropA).2 = [infoA] ∧
    infoB ∈ (iterLive [infoA, infoB] schedDropA).1 ∧
    infoB ∉ (iterLive [infoA, infoB] schedDropA).2 := by
  refine ⟨?_, by decide, by decide, by decide⟩
  have h := iterLiveGo_quiet l.length l 0 (by omega)
  rw [iterLive, h, List.drop_zero]
  rfl

/-- Inserting into the dict either leaves the key list alone (overwrite)
or appends the one new key. -/
theorem dictKeys_dictInsert {A : Type} (d : List (String × A)) (k : String)
    (v : A) :
    dictKeys (dictInsert d k v) =
      if k ∈ dictKeys d then dictKeys d else dictKeys d ++ [k] := by
  unfold dictInsert
  split
  · next h =>
    unfold dictKeys
    rw [List.map_map]
    apply List.map_congr_left
    intro p hp
    by_cases hpk : p.1 = k
    · simp [hpk]
    · simp [hpk]
  · next h =>
    unfold dictKeys
    rw [List.map_append]
    rfl

/-- Invariant of the `stats_handler` fold: the dict's key list stays
duplicate-free, and every key present came from the starting dict or from
some folded client's identifier. -/
theorem stats_fold_keys (pretty_date : Nat → String)
    (regs : List WebsocketClientInfo) :
    ∀ d : List (String × StatsClientEntry), (dictKeys d).Nodup →
      (dictKeys (regs.foldl
        (fun clients c =>
          dictInsert clients (client_identifier c) (stats_entry pretty_date c))
        d)).Nodup ∧
      dictKeys (regs.foldl
        (fun clients c =>
          dictInsert clients (client_identifier c) (stats_entry pretty_date c))
        d) ⊆ dictKeys d ++ regs.map client_identifier := by
  induction regs with
  | nil =>
    intro d hd
    exact ⟨hd, by simp⟩
  | cons c cs ih =>
    intro d hd
    have hstep : (c :: cs).foldl
        (fun clients c =>
          dictInsert clients (client_identifier c) (stats_entry pretty_date c))
        d =
      cs.foldl
        (fun clients c =>
          dictInsert clients (client_identifier c) (stats_entry pretty_date c))
        (dictInsert d (client_identifier c) (stats_entry pretty_date c)) := rfl
    rw [hstep]
    have hkeys := dictKeys_dictInsert d (client_identifier c)
      (stats_entry pretty_date c)
    by_cases hmem : client_identifier c ∈ dictKeys d
    · rw [if_pos hmem] at hkeys
      have hrec := ih (dictInsert d (client_identifier c)
        (stats_entry pretty_date c)) (by rw [hkeys]; exact hd)
      refine ⟨hrec.1, ?_⟩
      intro k hk
      have := hrec.2 hk
      rw [hkeys] at this
      rcases List.mem_append.mp this with h | h
      · exact List.mem_append.mpr (Or.inl h)
      · exact List.mem_append.mpr
          (Or.inr (by rw [List.map_cons]; exact List.mem_cons_of_mem _ h))
    · rw [if_neg hmem] at hkeys
      have hnd2 : (dictKeys (dictInsert d (client_identifier c)
          (stats_entry pretty_date c))).Nodup := by
        rw [hkeys]
        rw [List.nodup_append]
        exact ⟨hd, List.nodup_singleton _,
          by simpa [List.Disjoint] using fun a ha hb => hmem (by simpa [hb] using ha)⟩
      have hrec := ih _ hnd2
      refine ⟨hrec.1, ?_⟩
      intro k hk
      have := hrec.2 hk
      rw [hkeys] at this
      rcases List.mem_append.mp this with h | h
      · rcases List.mem_append.mp h with h2 | h2
        · exact List.mem_append.mpr (Or.inl h2)
        · rcases List.mem_singleton.mp h2 with rfl
          exact List.mem_append.mpr
            (Or.inr (List.mem_map_of_mem client_identifier (List.mem_cons_self c cs)))
      · exact List.mem_append.mpr
          (Or.inr (by rw [List.map_cons]; exact List.mem_cons_of_mem _ h))

/-- A list with a repeated element deduplicates to something strictly
shorter. -/
theorem dedup_length_lt_of_not_nodup (l : List String) (h : ¬ l.Nodup) :
    l.dedup.length < l.length := by
  have hsub : l.dedup.Sublist l := List.dedup_sublist l
  have hle : l.dedup.length ≤ l.length := hsub.length_le
  rcases Nat.lt_or_ge l.dedup.length l.length with hlt | hge
  · exact hlt
  · exfalso
    have heq : l.dedup.length = l.length := le_antisymm hle hge
    exact h (List.dedup_eq_self.mp (hsub.eq_of_length heq))

/-- Two distinct members mapped to the same value make the mapped list
carry a duplicate. -/
theorem not_nodup_map_of_collision (regs : List WebsocketClientInfo)
    (f : WebsocketClientInfo → String) (a b : WebsocketClientInfo)
    (ha : a ∈ regs) (hb : b ∈ regs) (hab : a ≠ b) (hf : f a = f b) :
    ¬ (regs.map f).Nodup := by
  intro hnd
  obtain ⟨s, t, rfl⟩ := List.append_of_mem ha
  have hb2 : b ∈ s ∨ b ∈ t := by
    rcases List.mem_append.mp hb with h | h
    · exact Or.inl h
    · rcases List.mem_cons.mp h with h | h
      · exact absurd h.symm hab
      · exact Or.inr h
  rw [List.map_append, List.map_cons] at hnd
  have hmid := List.nodup_middle.mp hnd
  have hnotin := (List.nodup_cons.mp hmid).1
  apply hnotin
  rw [List.mem_append]
  rcases hb2 with h | h
  · exact Or.inl (hf ▸ List.mem_map_of_mem f h)
  · exact Or.inr (hf ▸ List.mem_map_of_mem f h)

/-- C9: the statistics response always reports `connected_client_count`
as the exact number of registered subscribers, but the `clients` dict is
keyed by `"<external_ip>-<connection_time>"`, so whenever two distinct
registered subscribers share both fields their entries collide and the
dict holds strictly fewer entries than `connected_client_count`. -/
theorem C9_stats_collision (pretty_date : Nat → String)
    (regs : List WebsocketClientInfo) :
    (stats_handler pretty_date regs).1 = regs.length ∧
    (∀ a b : WebsocketClientInfo, a ∈ regs → b ∈ regs → a ≠ b →
      a.external_ip = b.external_ip →
      a.connection_time = b.connection_time →
      ((stats_handler pretty_date regs).2).length <
        (stats_handler pretty_date regs).1) := by
  refine ⟨rfl, ?_⟩
  intro a b ha hb hab hip ht
  have hid : client_identifier a = client_identifier b := by
    unfold client_identifier
    rw [hip, ht]
  have hkeys := stats_fold_keys pretty_date regs []
    (by simp [dictKeys])
  have hlen : ((stats_handler pretty_date regs).2).length =
      (dictKeys (stats_clients pretty_date regs)).length := by
    simp [dictKeys, stats_handler]
  have hsub : dictKeys (stats_clients pretty_date regs) ⊆
      regs.map client_identifier := by
    intro k hk
    have := hkeys.2 hk
    simpa [dictKeys] using this
  have h1 : (dictKeys (stats_clients pretty_date regs)).toFinset.card =
      (dictKeys (stats_clients pretty_date regs)).length :=
    List.toFinset_card_of_nodup hkeys.1
  have h2 : (dictKeys (stats_clients pretty_date regs)).toFinset ⊆
      (regs.map client_identifier).toFinset := by
    intro x hx
    rw [List.mem_toFinset] at hx ⊢
    exact hsub hx
  have h3 := Finset.card_le_card h2
  have h4 : (regs.map client_identifier).toFinset.card =
      (regs.map client_identifier).dedup.length := List.card_toFinset _
  have h5 : ¬ (regs.map client_identifier).Nodup :=
    not_nodup_map_of_collision regs client_identifier a b ha hb hab hid
  have h6 := dedup_length_lt_of_not_nodup _ h5
  have h7 : (regs.map client_identifier).length = regs.length :=
    List.length_map regs client_identifier
  show ((stats_handler pretty_date regs).2).length < regs.length
  omega

/-- Witness for C9: `infoA` and `infoC` connect from the same IP within
the same second; the stats count says 2 but the clients dict holds a
single, collided entry. -/
theorem C9_witness :
    (stats_handler prettyDateStub [infoA, infoC]).1 = [infoA, infoC].length ∧
    ((stats_handler prettyDateStub [infoA, infoC]).2).length <
      (stats_handler prettyDateStub [infoA, infoC]).1 := by
  have h := C9_stats_collision prettyDateStub [infoA, infoC]
  exact ⟨h.1, h.2 infoA infoC (by decide) (by decide) (by decide) rfl rfl⟩

/-- One system event preserves the buffer invariant: only the multiplexer
touches `recently_seen`, and what it appends is a `certificate_update`. -/
theorem step_preserves_bufferOnlyCerts (s : ServerState) (ev : Event)
    (h : bufferOnlyCerts s) : bufferOnlyCerts (step s ev) := by
  cases ev with
  | record d =>
    intro e he
    have hb : (step s (Event.record d)).recently_seen =
        dequeAppend s.recently_seen (Envelope.certificate_update d) := rfl
    rw [hb, dequeAppend_eq_drop] at he
    have hmem := List.drop_subset _ _ he
    rcases List.mem_append.mp hmem with h1 | h1
    · exact h e h1
    · rcases List.mem_singleton.mp h1 with rfl
      rfl
  | heartbeatTick ts => exact h
  | subscribe info => exact h
  | disconnect info => exact h

/-- Every state reachable from start-up satisfies the buffer invariant. -/
theorem run_bufferOnlyCerts (events : List Event) :
    bufferOnlyCerts (run events) := by
  have hgen : ∀ (evs : List Event) (s : ServerState), bufferOnlyCerts s →
      bufferOnlyCerts (evs.foldl step s) := by
    intro evs
    induction evs with
    | nil => intro s h; exact h
    | cons e es ih =>
      intro s h
      exact ih _ (step_preserves_bufferOnlyCerts s e h)
  exact hgen events initState (fun e he => absurd he (List.not_mem_nil e))

/-- C10: in every reachable state, every envelope stored in the replay
buffer is a `certificate_update`; a heartbeat broadcast leaves the buffer
untouched, so neither the example endpoint nor the latest-snapshot
endpoint can ever surface a heartbeat. -/
theorem C10_buffer_never_heartbeat (events : List Event) :
    (∀ e ∈ (run events).recently_seen,
      e.message_type = MessageType.certificate_update) ∧
    (∀ ts, (heartbeat_tick (run events) ts).recently_seen =
      (run events).recently_seen) ∧
    (∀ e, example_json_handler (run events).recently_seen =
        ExampleResponse.entry e →
      e.message_type = MessageType.certificate_update) ∧
    (∀ e ∈ latest_json_handler (run events).recently_seen,
      e.message_type = MessageType.certificate_update) := by
  have hinv := run_bufferOnlyCerts events
  refine ⟨hinv, fun ts => rfl, ?_, hinv⟩
  intro e he
  cases hbuf : (run events).recently_seen with
  | nil =>
    rw [hbuf] at he
    simp [example_json_handler] at he
  | cons e0 rest =>
    rw [hbuf] at he
    simp only [example_json_handler, ExampleResponse.entry.injEq] at he
    subst he
    exact hinv e0 (by rw [hbuf]; exact List.mem_cons_self e0 rest)

/-- Witness for C10: after subscribe, one record, one heartbeat tick, the
sole buffered envelope is record 7's `certificate_update`, and a further
heartbeat broadcast leaves the buffer as it is. -/
theorem C10_witness :
    (Envelope.certificate_update 7).message_type =
      MessageType.certificate_update ∧
    (heartbeat_tick
      (run [Event.subscribe infoA, Event.record 7, Event.heartbeatTick 10])
      20).recently_seen =
      (run [Event.subscribe infoA, Event.record 7,
        Event.heartbeatTick 10]).recently_seen := by
  have h := C10_buffer_never_heartbeat
    [Event.subscribe infoA, Event.record 7, Event.heartbeatTick 10]
  exact ⟨h.1 (Envelope.certificate_update 7) (by decide), h.2.1 20⟩

end Certstream
